import Mathlib

/-!
Verification of the `aimakerspace` core of the AIE8 repository: the in-memory
vector database (`vectordatabase.py`) and the character text splitter
(`text_utils.py`).

The embedding below translates the Python source:

* `VectorDatabase.vectors` is a Python dict (insertion-ordered, updating an
  existing key keeps its position), modelled as an association list.
* Python's stable `sorted(scores, key=lambda x: x[1], reverse=True)` is
  modelled by `List.insertionSort (fun a b => b.2 ≤ a.2)`, which is also
  stable and sorts descending; we prove the stability property we rely on.
* Python's slice `l[:k]` for an arbitrary integer `k` is `pySliceTo`:
  nonnegative `k` keeps the first `k` items, negative `k` drops the last
  `|k|` items (clamped at zero).
* The similarity metrics are modelled over real-valued vectors
  (`List ℝ`); the store and its operations are polymorphic in the vector
  type `V` and the score type `S` (the Python code is duck-typed in both).
* `count_tokens` is modelled as `String → ℕ`: the repository's token
  counter (`TokenCounter.count`, a `len` of an encoding) is nonnegative.
* `zip(..., strict=True)` in `abuild_from_list` is lazy: it yields pairs
  until one input runs out and only then raises `ValueError`, so the loop
  body has already inserted the shorter prefix.  `zipStrictInsertLoop`
  models exactly that; the `Bool` component records whether the
  `ValueError` was raised.
-/

namespace AIE8

/-! ### Similarity metrics — vectordatabase.py lines 10-38 -/

/-- Dot product of two real vectors, `np.dot`: sum of pointwise products
(numpy requires equal lengths; `zipWith` truncates, which agrees on all
inputs the library passes). -/
def dotp (a b : List ℝ) : ℝ := (List.zipWith (fun x y => x * y) a b).sum

/-- Function `cosine_similarity` (lines 10-15): `np.dot(a, b) / (norm(a) * norm(b))`
with `norm(x) = sqrt(Σ xᵢ²) = sqrt (dotp x x)`.  Division by zero (both the
spec and the source flag the all-zero-vector case) is the real-field
convention `x / 0 = 0`. -/
noncomputable def cosine_similarity (vector_a vector_b : List ℝ) : ℝ :=
  dotp vector_a vector_b /
    (Real.sqrt (dotp vector_a vector_a) * Real.sqrt (dotp vector_b vector_b))

/-- Function `dot_product_similarity` (lines 18-20): the raw dot product. -/
def dot_product_similarity (vector_a vector_b : List ℝ) : ℝ := dotp vector_a vector_b

/-- Function `euclidean_similarity` (lines 23-25): negative L2 distance
`-norm(a - b, ord=2)`. -/
noncomputable def euclidean_similarity (vector_a vector_b : List ℝ) : ℝ :=
  - Real.sqrt (((List.zipWith (fun x y => x - y) vector_a vector_b).map (fun x => x ^ 2)).sum)

/-- Function `manhattan_similarity` (lines 28-30): negative L1 distance
`-np.sum(np.abs(a - b))`. -/
def manhattan_similarity (vector_a vector_b : List ℝ) : ℝ :=
  - ((List.zipWith (fun x y => x - y) vector_a vector_b).map (fun x => |x|)).sum

/-! ### The vector store — vectordatabase.py lines 41-111 -/

/-- The store state: `self.vectors`, a Python dict from key to vector in
insertion order. -/
structure VectorDatabase (V : Type) where
  vectors : List (String × V)
  deriving DecidableEq, Repr

/-- Python's slice `l[:k]` for an integer `k` (line 59 `sorted(...)[:k]`):
for `k ≥ 0` the first `min k (length l)` items; for `k < 0` the items up to
index `length l + k` (so all but the last `|k|`, empty when `|k| ≥ length`). -/
def pySliceTo {α : Type} (k : ℤ) (l : List α) : List α :=
  if 0 ≤ k then l.take k.toNat else l.take ((l.length : ℤ) + k).toNat

variable {V S : Type} [LinearOrder S]

/-- Method `insert` (lines 46-47): dict assignment `self.vectors[key] = vector`.
An existing key keeps its position in the iteration order and gets the new
value; a new key is appended at the end. -/
def VectorDatabase.insert (db : VectorDatabase V) (key : String) (vector : V) :
    VectorDatabase V :=
  if db.vectors.any (fun kv => decide (kv.1 = key)) then
    ⟨db.vectors.map (fun kv => if kv.1 = key then (key, vector) else kv)⟩
  else
    ⟨db.vectors ++ [(key, vector)]⟩

/-- Method `search` (lines 49-59): score every stored vector against the query in
iteration order, sort the `(key, score)` pairs descending by score with a
stable sort, and keep `[:k]`. -/
def VectorDatabase.search (db : VectorDatabase V) (query_vector : V) (k : ℤ)
    (distance_measure : V → V → S) : List (String × S) :=
  pySliceTo k
    (List.insertionSort (fun a b => b.2 ≤ a.2)
      (db.vectors.map (fun kv => (kv.1, distance_measure query_vector kv.2))))

/-- Method `search_by_text` (lines 61-70) on its default `return_as_text=False`
path: embed the query text through the (external) embedding model and
delegate to `search`.  The embedding model is the injected function
`get_embedding`. -/
def VectorDatabase.search_by_text (db : VectorDatabase V) (get_embedding : String → V)
    (query_text : String) (k : ℤ) (distance_measure : V → V → S) : List (String × S) :=
  db.search (get_embedding query_text) k distance_measure

/-- Method `retrieve_from_key` (lines 72-73): `self.vectors.get(key, None)`. -/
def VectorDatabase.retrieve_from_key (db : VectorDatabase V) (key : String) : Option V :=
  (db.vectors.find? (fun kv => decide (kv.1 = key))).map (fun kv => kv.2)

/-- The `for text, embedding in zip(list_of_text, embeddings, strict=True)`
loop of `abuild_from_list` (lines 77-78).  `zip(strict=True)` yields pairs
lazily and raises `ValueError` only when one side is exhausted before the
other, so the inserts for the common prefix have already happened; the
`Bool` is `true` exactly when the `ValueError` is raised. -/
def zipStrictInsertLoop : VectorDatabase V → List String → List V → VectorDatabase V × Bool
  | db, [], [] => (db, false)
  | db, _ :: _, [] => (db, true)
  | db, [], _ :: _ => (db, true)
  | db, t :: ts, e :: es => zipStrictInsertLoop (db.insert t e) ts es

/-- Method `abuild_from_list` (lines 75-79): fetch all embeddings for the texts in
one batched call to the external model (`async_get_embeddings`), then run
the strict-zip insert loop.  Returns the store state after the call and
whether a `ValueError` was raised. -/
def VectorDatabase.abuild_from_list (db : VectorDatabase V)
    (async_get_embeddings : List String → List V) (list_of_text : List String) :
    VectorDatabase V × Bool :=
  zipStrictInsertLoop db list_of_text (async_get_embeddings list_of_text)

/-- The selection loop of `search_by_text_with_token_budget`
(lines 104-109): walk the scored results in order; for each, count its
tokens; stop at the first whose count added to the running total would
exceed the limit; otherwise select it and accumulate. -/
def budgetLoop (count_tokens : String → ℕ) (limit : ℕ) :
    ℕ → List (String × S) → List String × ℕ
  | used_tokens, [] => ([], used_tokens)
  | used_tokens, (text, _) :: rest =>
    let t := count_tokens text
    if limit < used_tokens + t then ([], used_tokens)
    else
      let r := budgetLoop count_tokens limit (used_tokens + t) rest
      (text :: r.1, r.2)

/-- Method `search_by_text_with_token_budget` (lines 81-111).  `limit` is Python's
`max(0, max_context_tokens - reserve_tokens)`, here `Int.toNat` of the
difference (the same value).  Returns
`(selected_texts, used_tokens, scored_results)`. -/
def VectorDatabase.search_by_text_with_token_budget (db : VectorDatabase V)
    (get_embedding : String → V) (query_text : String) (k : ℤ)
    (count_tokens : String → ℕ) (max_context_tokens : ℤ)
    (distance_measure : V → V → S) (reserve_tokens : ℤ) :
    List String × ℕ × List (String × S) :=
  let scored_results := db.search_by_text get_embedding query_text k distance_measure
  let limit := (max_context_tokens - reserve_tokens).toNat
  let r := budgetLoop count_tokens limit 0 scored_results
  (r.1, r.2, scored_results)

/-! ### State-passing views of the read-only operations (for the frame
property).  Each Python method receives `self`; the pair returned here is
(the `self.vectors` state when the method returns, the method's value).
The three methods below only ever read the dict (`.items()` iteration in
`search`, `.get` in `retrieve_from_key` — never the defaultdict
`__getitem__`, which would insert a default), so the out-state is the
dict they read. -/

/-- Method `search` as a state transformer on `self.vectors`. -/
def VectorDatabase.search_op (db : VectorDatabase V) (query_vector : V) (k : ℤ)
    (distance_measure : V → V → S) : VectorDatabase V × List (String × S) :=
  (db, db.search query_vector k distance_measure)

/-- Method `retrieve_from_key` as a state transformer on `self.vectors`. -/
def VectorDatabase.retrieve_op (db : VectorDatabase V) (key : String) :
    VectorDatabase V × Option V :=
  (db, db.retrieve_from_key key)

/-- Method `search_by_text_with_token_budget` as a state transformer on
`self.vectors`. -/
def VectorDatabase.search_budget_op (db : VectorDatabase V)
    (get_embedding : String → V) (query_text : String) (k : ℤ)
    (count_tokens : String → ℕ) (max_context_tokens : ℤ)
    (distance_measure : V → V → S) (reserve_tokens : ℤ) :
    VectorDatabase V × (List String × ℕ × List (String × S)) :=
  (db, db.search_by_text_with_token_budget get_embedding query_text k count_tokens
    max_context_tokens distance_measure reserve_tokens)

/-! ### The character text splitter — text_utils.py lines 49-72 -/

/-- The splitter's configuration. -/
structure CharacterTextSplitter where
  chunk_size : ℤ
  chunk_overlap : ℤ
  deriving DecidableEq, Repr

/-- Constructor `CharacterTextSplitter.__init__` (lines 50-60): the `assert
chunk_size > chunk_overlap` raises an `AssertionError` (a configuration
error) when it fails, otherwise the splitter is constructed. -/
def CharacterTextSplitter.init (chunk_size chunk_overlap : ℤ) :
    Except String CharacterTextSplitter :=
  if chunk_overlap < chunk_size then
    Except.ok ⟨chunk_size, chunk_overlap⟩
  else
    Except.error "Chunk size must be greater than chunk overlap"

/-- Python's slice `text[a : b]` for arbitrary integer bounds: a negative
bound counts from the end (`len + bound`), bounds are clamped to
`[0, len]`, and the slice is the elements from the resolved start (incl.)
to the resolved stop (excl.). -/
def pySlice {α : Type} (l : List α) (a b : ℤ) : List α :=
  let n : ℤ := l.length
  let a' : ℕ := if a < 0 then (n + a).toNat else (min a n).toNat
  let b' : ℕ := if b < 0 then (n + b).toNat else (min b n).toNat
  (l.take b').drop a'

/-- Method `split` (lines 62-66): `for i in range(0, len(text), chunk_size -
chunk_overlap): chunks.append(text[i : i + chunk_size])`.  `range(0, L, s)`
for `s > 0` is `[0, s, 2s, ...]` with `⌈L / s⌉` elements, i.e.
`List.range' 0 ((L + s - 1) / s) s`.  (For `s ≤ 0` Python `range` raises;
the constructor's assert makes the stride positive, so that case is
unreachable from a constructed splitter.) -/
def CharacterTextSplitter.split (s : CharacterTextSplitter) (text : List Char) :
    List (List Char) :=
  let stride := (s.chunk_size - s.chunk_overlap).toNat
  (List.range' 0 ((text.length + stride - 1) / stride) stride).map
    (fun i : ℕ => pySlice text (i : ℤ) ((i : ℤ) + s.chunk_size))

/-! ### Helper lemmas -/

/-- The strict-zip insert loop inserts exactly the pairs of the truncating
zip of its two inputs, in order. -/
theorem zipStrictInsertLoop_fst (ts : List String) (es : List V) (db : VectorDatabase V) :
    (zipStrictInsertLoop db ts es).1 =
      (ts.zip es).foldl (fun d p => d.insert p.1 p.2) db := by
  induction ts generalizing es db with
  | nil => cases es <;> simp [zipStrictInsertLoop]
  | cons t ts ih =>
    cases es with
    | nil => simp [zipStrictInsertLoop]
    | cons e es => simpa [zipStrictInsertLoop] using ih es (db.insert t e)

/-- The strict-zip insert loop reports the `ValueError` exactly when the
two inputs have different lengths. -/
theorem zipStrictInsertLoop_snd (ts : List String) (es : List V) (db : VectorDatabase V) :
    (zipStrictInsertLoop db ts es).2 = true ↔ ts.length ≠ es.length := by
  induction ts generalizing es db with
  | nil => cases es <;> simp [zipStrictInsertLoop]
  | cons t ts ih =>
    cases es with
    | nil => simp [zipStrictInsertLoop]
    | cons e es => simpa [zipStrictInsertLoop] using ih es (db.insert t e)

/-! ### Claims -/

/-- C8: constructing a `CharacterTextSplitter` fails with a configuration
error exactly when `chunk_size ≤ chunk_overlap`; when
`chunk_size > chunk_overlap`, construction succeeds. -/
theorem init_ok_iff_size_gt_overlap (chunk_size chunk_overlap : ℤ) :
    (∃ s, CharacterTextSplitter.init chunk_size chunk_overlap = Except.ok s) ↔
      chunk_overlap < chunk_size := by
  by_cases h : chunk_overlap < chunk_size <;>
    simp [CharacterTextSplitter.init, h]

/-- C9: the read/query operations `search`, `retrieve_from_key` and
`search_by_text_with_token_budget` leave the store's key-to-vector mapping
unchanged: the state each one hands back is exactly the state it was called
on, so every key maps to the same vector as before and no key is added or
removed. -/
theorem read_ops_leave_store_unchanged (db : VectorDatabase V) (query_vector : V)
    (k : ℤ) (distance_measure : V → V → S) (key : String) (get_embedding : String → V)
    (query_text : String) (count_tokens : String → ℕ)
    (max_context_tokens reserve_tokens : ℤ) :
    (db.search_op query_vector k distance_measure).1.vectors = db.vectors
    ∧ (db.retrieve_op key).1.vectors = db.vectors
    ∧ (db.search_budget_op get_embedding query_text k count_tokens max_context_tokens
        distance_measure reserve_tokens).1.vectors = db.vectors :=
  ⟨rfl, rfl, rfl⟩

/-- C2, counterexample to the claim as stated: `k = -1 ≤ 0` on a two-entry
store does not return an empty sequence — Python's `[:k]` slice for
negative `k` keeps everything but the last `|k|` results. -/
theorem search_negative_k_nonempty_cex :
    ((-1 : ℤ) ≤ 0)
    ∧ (⟨[("a", (1 : ℤ)), ("b", 1)]⟩ : VectorDatabase ℤ).search 1 (-1) (fun q v => q * v)
        = [("a", 1)]
    ∧ (⟨[("a", (1 : ℤ)), ("b", 1)]⟩ : VectorDatabase ℤ).search 1 (-1) (fun q v => q * v)
        ≠ [] := by
  refine ⟨by norm_num, by decide, by decide⟩

/-- C2, amended: `search` with `k = 0` returns an empty sequence, and with
`k ≤ 0` it returns an empty sequence whenever the store holds at most `-k`
entries (for other negative `k` Python's slice keeps all but the last `|k|`
ranked results); `search` on an empty store returns an empty sequence for
every `k`. -/
theorem search_k_zero_and_empty_store (db : VectorDatabase V) (query_vector : V)
    (distance_measure : V → V → S) (k : ℤ) :
    db.search query_vector 0 distance_measure = []
    ∧ (k ≤ 0 → (db.vectors.length : ℤ) ≤ -k →
        db.search query_vector k distance_measure = [])
    ∧ (db.vectors = [] → db.search query_vector k distance_measure = []) := by
  refine ⟨?_, ?_, ?_⟩
  · simp [VectorDatabase.search, pySliceTo]
  · intro hk hlen
    unfold VectorDatabase.search pySliceTo
    have hlength :
        (List.insertionSort (fun a b => b.2 ≤ a.2)
          (db.vectors.map (fun kv => (kv.1, distance_measure query_vector kv.2)))).length
          = db.vectors.length := by
      rw [(List.perm_insertionSort _ _).length_eq, List.length_map]
    rcases lt_or_eq_of_le hk with hk' | hk'
    · rw [if_neg (by omega)]
      rw [hlength]
      have : ((db.vectors.length : ℤ) + k).toNat = 0 := by omega
      simp [this]
    · subst hk'
      simp
  · intro h
    simp [VectorDatabase.search, pySliceTo, h]

/-- C2 witness: the amended statement applied to a concrete two-entry
store with `k = -2`. -/
theorem search_k_zero_and_empty_store_witness :
    (⟨[("a", (1 : ℤ)), ("b", 1)]⟩ : VectorDatabase ℤ).search 1 0 (fun q v => q * v) = []
    ∧ ((-2 : ℤ) ≤ 0 → (((⟨[("a", (1 : ℤ)), ("b", 1)]⟩ : VectorDatabase ℤ).vectors.length : ℤ) ≤ -(-2) →
        (⟨[("a", (1 : ℤ)), ("b", 1)]⟩ : VectorDatabase ℤ).search 1 (-2) (fun q v => q * v) = []))
    ∧ ((⟨[("a", (1 : ℤ)), ("b", 1)]⟩ : VectorDatabase ℤ).vectors = [] →
        (⟨[("a", (1 : ℤ)), ("b", 1)]⟩ : VectorDatabase ℤ).search 1 (-2) (fun q v => q * v) = []) :=
  search_k_zero_and_empty_store _ _ _ _

/-- C3, counterexample to the claim as stated: on an empty store, a batch
of two texts against a provider returning one vector raises the
`ValueError` (the error is surfaced), but the store is NOT left as it was:
the pair seen before the mismatch was already inserted, because
`zip(strict=True)` yields pairs lazily and only then raises. -/
theorem abuild_partial_state_cex :
    ((⟨[]⟩ : VectorDatabase ℤ).abuild_from_list (fun _ => [7]) ["a", "b"]).2 = true
    ∧ ((⟨[]⟩ : VectorDatabase ℤ).abuild_from_list (fun _ => [7]) ["a", "b"]).1.vectors
        = [("a", 7)]
    ∧ [("a", (7 : ℤ))] ≠ ([] : List (String × ℤ)) :=
  ⟨rfl, rfl, by decide⟩

/-- C3, amended: when the embedding provider returns a different number of
vectors than the number of input texts, `abuild_from_list` does surface the
mismatch as an error (a `ValueError`, not a silent truncation), but the
store is not rolled back: the call leaves the store equal to the prior
state updated with the first `min(#texts, #vectors)` text/vector pairs
(the pairs the lazy strict zip yielded before detecting the mismatch). -/
theorem abuild_from_list_mismatch_error_partial (db : VectorDatabase V)
    (async_get_embeddings : List String → List V) (list_of_text : List String)
    (hne : (async_get_embeddings list_of_text).length ≠ list_of_text.length) :
    (db.abuild_from_list async_get_embeddings list_of_text).2 = true
    ∧ (db.abuild_from_list async_get_embeddings list_of_text).1 =
        (list_of_text.zip (async_get_embeddings list_of_text)).foldl
          (fun d p => d.insert p.1 p.2) db := by
  constructor
  · rw [VectorDatabase.abuild_from_list, zipStrictInsertLoop_snd]
    exact fun h => hne h.symm
  · rw [VectorDatabase.abuild_from_list, zipStrictInsertLoop_fst]

/-- C3 witness: the amended statement at the concrete mismatching input
(two texts, one returned vector), with the folded store evaluated. -/
theorem abuild_from_list_mismatch_error_partial_witness :
    (((fun _ : List String => [(7 : ℤ)]) ["a", "b"]).length ≠ (["a", "b"] : List String).length)
    ∧ (((⟨[]⟩ : VectorDatabase ℤ).abuild_from_list (fun _ => [7]) ["a", "b"]).2 = true
        ∧ ((⟨[]⟩ : VectorDatabase ℤ).abuild_from_list (fun _ => [7]) ["a", "b"]).1 =
            ((["a", "b"] : List String).zip ((fun _ : List String => [(7 : ℤ)]) ["a", "b"])).foldl
              (fun d p => d.insert p.1 p.2) ⟨[]⟩) :=
  ⟨by decide, abuild_from_list_mismatch_error_partial ⟨[]⟩ (fun _ => [7]) ["a", "b"] (by decide)⟩

/-- Full behaviour of the selection loop, by induction on the scored list:
the selection is the prefix of the texts of length `selection.length`; the
final running total is the start total plus the token counts of the
selection; the total never exceeds the limit (when it started within it);
and when the loop stopped before the end of the list, the very next item's
token count added to the total would exceed the limit. -/
theorem budgetLoop_spec (count_tokens : String → ℕ) (limit : ℕ)
    (l : List (String × S)) (used : ℕ) :
    (budgetLoop count_tokens limit used l).1 =
        (l.map Prod.fst).take (budgetLoop count_tokens limit used l).1.length
    ∧ (budgetLoop count_tokens limit used l).2 =
        used + ((budgetLoop count_tokens limit used l).1.map count_tokens).sum
    ∧ (used ≤ limit → (budgetLoop count_tokens limit used l).2 ≤ limit)
    ∧ ((budgetLoop count_tokens limit used l).1.length < l.length →
        limit < (budgetLoop count_tokens limit used l).2 +
          count_tokens ((l.map Prod.fst).getD
            (budgetLoop count_tokens limit used l).1.length "")) := by
  induction l generalizing used with
  | nil => simp [budgetLoop]
  | cons p rest ih =>
    obtain ⟨text, sc⟩ := p
    by_cases hcond : limit < used + count_tokens text
    · simp only [budgetLoop, if_pos hcond]
      exact ⟨rfl, by simp, fun hu => hu,
        fun _ => by simpa using hcond⟩
    · simp only [budgetLoop, if_neg hcond]
      obtain ⟨ih1, ih2, ih3, ih4⟩ := ih (used + count_tokens text)
      refine ⟨?_, ?_, ?_, ?_⟩
      · simpa [List.take_succ_cons] using ih1
      · simp only [List.map_cons, List.sum_cons]
        omega
      · intro _
        exact ih3 (le_of_not_lt hcond)
      · intro h
        simp only [List.length_cons, add_lt_add_iff_right] at h
        simpa [List.getD_cons_succ] using ih4 h

/-- When the first scored item's token count alone exceeds the limit, the
selection loop (started at zero used tokens) selects nothing. -/
theorem budgetLoop_head_over (count_tokens : String → ℕ) (limit : ℕ)
    (l : List (String × S)) (h : 0 < l.length)
    (hover : limit < count_tokens ((l.map Prod.fst).getD 0 "")) :
    (budgetLoop count_tokens limit 0 l).1 = [] := by
  cases l with
  | nil => simp at h
  | cons p rest =>
    obtain ⟨text, sc⟩ := p
    simp only [List.map_cons, List.getD_cons_zero] at hover
    simp [budgetLoop, hover]

/-- Unfolding of `search_by_text_with_token_budget` into the selection
loop that implements it (definitional). -/
theorem search_by_text_with_token_budget_eq (db : VectorDatabase V)
    (get_embedding : String → V) (query_text : String) (k : ℤ)
    (count_tokens : String → ℕ) (max_context_tokens : ℤ)
    (distance_measure : V → V → S) (reserve_tokens : ℤ) :
    db.search_by_text_with_token_budget get_embedding query_text k count_tokens
        max_context_tokens distance_measure reserve_tokens =
      ((budgetLoop count_tokens (max_context_tokens - reserve_tokens).toNat 0
          (db.search_by_text get_embedding query_text k distance_measure)).1,
        (budgetLoop count_tokens (max_context_tokens - reserve_tokens).toNat 0
          (db.search_by_text get_embedding query_text k distance_measure)).2,
        db.search_by_text get_embedding query_text k distance_measure) := rfl

/-- C1: `search_by_text_with_token_budget` selects a contiguous prefix of
the ranked results: the selected texts are the first `selection.length`
texts of the ranked list (so the first over-budget item and everything
after it is excluded), the used token total never exceeds
`limit = max 0 (max_context_tokens - reserve_tokens)`, and when the
selection stops before the end of the ranked list, the next ranked item's
token count added to the total would exceed the limit. -/
theorem search_by_text_with_token_budget_greedy (db : VectorDatabase V)
    (get_embedding : String → V) (query_text : String) (k : ℤ)
    (count_tokens : String → ℕ) (max_context_tokens : ℤ)
    (distance_measure : V → V → S) (reserve_tokens : ℤ) :
    (db.search_by_text_with_token_budget get_embedding query_text k count_tokens
        max_context_tokens distance_measure reserve_tokens).1 =
      ((db.search_by_text_with_token_budget get_embedding query_text k count_tokens
          max_context_tokens distance_measure reserve_tokens).2.2.map Prod.fst).take
        (db.search_by_text_with_token_budget get_embedding query_text k count_tokens
          max_context_tokens distance_measure reserve_tokens).1.length
    ∧ ((db.search_by_text_with_token_budget get_embedding query_text k count_tokens
          max_context_tokens distance_measure reserve_tokens).2.1 : ℤ) ≤
        max 0 (max_context_tokens - reserve_tokens)
    ∧ ((db.search_by_text_with_token_budget get_embedding query_text k count_tokens
          max_context_tokens distance_measure reserve_tokens).1.length <
        (db.search_by_text_with_token_budget get_embedding query_text k count_tokens
          max_context_tokens distance_measure reserve_tokens).2.2.length →
        max 0 (max_context_tokens - reserve_tokens) <
          ((db.search_by_text_with_token_budget get_embedding query_text k count_tokens
              max_context_tokens distance_measure reserve_tokens).2.1 : ℤ) +
            count_tokens
              (((db.search_by_text_with_token_budget get_embedding query_text k count_tokens
                  max_context_tokens distance_measure reserve_tokens).2.2.map Prod.fst).getD
                (db.search_by_text_with_token_budget get_embedding query_text k count_tokens
                  max_context_tokens distance_measure reserve_tokens).1.length "")) := by
  obtain ⟨h1, h2, h3, h4⟩ :=
    budgetLoop_spec count_tokens (max_context_tokens - reserve_tokens).toNat
      (db.search_by_text get_embedding query_text k distance_measure) 0
  simp only [search_by_text_with_token_budget_eq]
  refine ⟨h1, ?_, ?_⟩
  · have := h3 (Nat.zero_le _)
    omega
  · intro h
    have := h4 h
    omega

/-- C10: the `used_tokens` component returned by
`search_by_text_with_token_budget` equals the sum of `count_tokens` over
the returned `selected_texts`, and the returned `scored_results` is exactly
the full ranked list produced by the underlying `search_by_text`. -/
theorem search_by_text_with_token_budget_used_eq_sum (db : VectorDatabase V)
    (get_embedding : String → V) (query_text : String) (k : ℤ)
    (count_tokens : String → ℕ) (max_context_tokens : ℤ)
    (distance_measure : V → V → S) (reserve_tokens : ℤ) :
    (db.search_by_text_with_token_budget get_embedding query_text k count_tokens
        max_context_tokens distance_measure reserve_tokens).2.1 =
      ((db.search_by_text_with_token_budget get_embedding query_text k count_tokens
          max_context_tokens distance_measure reserve_tokens).1.map count_tokens).sum
    ∧ (db.search_by_text_with_token_budget get_embedding query_text k count_tokens
          max_context_tokens distance_measure reserve_tokens).2.2 =
        db.search_by_text get_embedding query_text k distance_measure := by
  obtain ⟨h1, h2, h3, h4⟩ :=
    budgetLoop_spec count_tokens (max_context_tokens - reserve_tokens).toNat
      (db.search_by_text get_embedding query_text k distance_measure) 0
  simp only [search_by_text_with_token_budget_eq]
  exact ⟨by simpa using h2, by simp⟩

/-- C4, counterexample to the claim as stated: with
`max_context_tokens = reserve_tokens = 0` the limit is `0`, yet a ranked
item whose token count is `0` (for a real tokenizer, the empty string) is
still selected — `0 + 0 > 0` is false, so the selection is not empty. -/
theorem budget_limit_zero_nonempty_cex :
    max 0 ((0 : ℤ) - 0) = 0
    ∧ ((⟨[("", (0 : ℤ))]⟩ : VectorDatabase ℤ).search_by_text_with_token_budget
        (fun _ => 0) "q" 1 (fun _ => 0) 0 (fun _ _ => (0 : ℤ)) 0).1 = [""]
    ∧ ((⟨[("", (0 : ℤ))]⟩ : VectorDatabase ℤ).search_by_text_with_token_budget
        (fun _ => 0) "q" 1 (fun _ => 0) 0 (fun _ _ => (0 : ℤ)) 0).1 ≠ [] := by
  refine ⟨by norm_num, by decide, by decide⟩

/-- C4, amended: if `limit = max 0 (max_context_tokens - reserve_tokens)`
equals `0`, the used token total is `0` and every selected item has token
count `0` (the selection is empty whenever the first item's count is
positive, but zero-count items are still selected); and if the very first
ranked item's token count alone exceeds `limit`, the selection is empty
(the first item is rejected and the loop stops there). -/
theorem budget_limit_zero_and_oversized_first (db : VectorDatabase V)
    (get_embedding : String → V) (query_text : String) (k : ℤ)
    (count_tokens : String → ℕ) (max_context_tokens : ℤ)
    (distance_measure : V → V → S) (reserve_tokens : ℤ) :
    (max 0 (max_context_tokens - reserve_tokens) = 0 →
      (db.search_by_text_with_token_budget get_embedding query_text k count_tokens
          max_context_tokens distance_measure reserve_tokens).2.1 = 0
      ∧ ∀ s ∈ (db.search_by_text_with_token_budget get_embedding query_text k count_tokens
          max_context_tokens distance_measure reserve_tokens).1, count_tokens s = 0)
    ∧ (0 < (db.search_by_text_with_token_budget get_embedding query_text k count_tokens
          max_context_tokens distance_measure reserve_tokens).2.2.length →
        max 0 (max_context_tokens - reserve_tokens) <
          (count_tokens
            (((db.search_by_text_with_token_budget get_embedding query_text k count_tokens
                max_context_tokens distance_measure reserve_tokens).2.2.map Prod.fst).getD 0 "") : ℤ) →
        (db.search_by_text_with_token_budget get_embedding query_text k count_tokens
          max_context_tokens distance_measure reserve_tokens).1 = []) := by
  obtain ⟨h1, h2, h3, h4⟩ :=
    budgetLoop_spec count_tokens (max_context_tokens - reserve_tokens).toNat
      (db.search_by_text get_embedding query_text k distance_measure) 0
  simp only [search_by_text_with_token_budget_eq]
  constructor
  · intro hlim
    have hlim' : (max_context_tokens - reserve_tokens).toNat = 0 := by omega
    have hused : (budgetLoop count_tokens (max_context_tokens - reserve_tokens).toNat 0
        (db.search_by_text get_embedding query_text k distance_measure)).2 = 0 := by
      have := h3 (Nat.zero_le _)
      omega
    refine ⟨hused, fun s hs => ?_⟩
    have hsum : (((budgetLoop count_tokens (max_context_tokens - reserve_tokens).toNat 0
        (db.search_by_text get_embedding query_text k distance_measure)).1.map
          count_tokens).sum) = 0 := by
      omega
    exact List.sum_eq_zero_iff.mp hsum _ (List.mem_map_of_mem count_tokens hs)
  · intro hlen hover
    refine budgetLoop_head_over count_tokens _ _ hlen ?_
    omega

/-- C4 witness: the amended statement at a concrete input where the limit
is zero and the single ranked item counts five tokens, so both branches
fire and the selection is empty. -/
theorem budget_limit_zero_and_oversized_first_witness :
    ((⟨[("a", (0 : ℤ))]⟩ : VectorDatabase ℤ).search_by_text_with_token_budget
        (fun _ => 0) "q" 1 (fun _ => 5) 0 (fun _ _ => (0 : ℤ)) 0).1 = []
    ∧ ((max 0 ((0 : ℤ) - 0) = 0 →
        ((⟨[("a", (0 : ℤ))]⟩ : VectorDatabase ℤ).search_by_text_with_token_budget
            (fun _ => 0) "q" 1 (fun _ => 5) 0 (fun _ _ => (0 : ℤ)) 0).2.1 = 0
        ∧ ∀ s ∈ ((⟨[("a", (0 : ℤ))]⟩ : VectorDatabase ℤ).search_by_text_with_token_budget
            (fun _ => 0) "q" 1 (fun _ => 5) 0 (fun _ _ => (0 : ℤ)) 0).1,
            (fun _ : String => 5) s = 0)
      ∧ (0 < ((⟨[("a", (0 : ℤ))]⟩ : VectorDatabase ℤ).search_by_text_with_token_budget
            (fun _ => 0) "q" 1 (fun _ => 5) 0 (fun _ _ => (0 : ℤ)) 0).2.2.length →
          max 0 ((0 : ℤ) - 0) <
            ((fun _ : String => 5)
              ((((⟨[("a", (0 : ℤ))]⟩ : VectorDatabase ℤ).search_by_text_with_token_budget
                  (fun _ => 0) "q" 1 (fun _ => 5) 0 (fun _ _ => (0 : ℤ)) 0).2.2.map
                    Prod.fst).getD 0 "") : ℤ) →
          ((⟨[("a", (0 : ℤ))]⟩ : VectorDatabase ℤ).search_by_text_with_token_budget
            (fun _ => 0) "q" 1 (fun _ => 5) 0 (fun _ _ => (0 : ℤ)) 0).1 = [])) :=
  ⟨by decide,
    budget_limit_zero_and_oversized_first ⟨[("a", (0 : ℤ))]⟩ (fun _ => 0) "q" 1
      (fun _ => 5) 0 (fun _ _ => (0 : ℤ)) 0⟩

/-- A `take` is a prefix of its list. -/
theorem take_isPre {α : Type} (n : ℕ) (l : List α) : l.take n <+: l :=
  ⟨l.drop n, List.take_append_drop n l⟩

/-- The Python slice `l[:k]` is a prefix of `l`. -/
theorem pySliceTo_isPre {α : Type} (k : ℤ) (l : List α) : pySliceTo k l <+: l := by
  unfold pySliceTo
  split <;> exact take_isPre _ l

/-- Filtering respects the prefix order. -/
theorem filter_isPre {α : Type} (p : α → Bool) {l₁ l₂ : List α} (h : l₁ <+: l₂) :
    l₁.filter p <+: l₂.filter p := by
  obtain ⟨t, rfl⟩ := h
  exact ⟨t.filter p, (List.filter_append _ _).symm⟩

/-- Inserting a pair whose score is `s` into a list with `orderedInsert`
(descending by score) puts it in front of every held pair of score `s`:
the pairs it passes over all have strictly larger scores. -/
theorem filter_orderedInsert_eq_pos (s : S) (a : String × S) (ha : a.2 = s)
    (l : List (String × S)) :
    (List.orderedInsert (fun x y => y.2 ≤ x.2) a l).filter (fun x => decide (x.2 = s)) =
      a :: l.filter (fun x => decide (x.2 = s)) := by
  induction l with
  | nil => simp [List.orderedInsert, ha]
  | cons b t ih =>
    by_cases hr : b.2 ≤ a.2
    · simp only [List.orderedInsert, if_pos hr]
      simp [ha]
    · have hb : ¬ b.2 = s := fun h => hr (le_of_eq (ha ▸ h))
      simp only [List.orderedInsert, if_neg hr]
      simp [hb, ih]

/-- Inserting a pair whose score is not `s` with `orderedInsert` does not
change the score-`s` pairs or their order. -/
theorem filter_orderedInsert_eq_neg (s : S) (a : String × S) (ha : ¬ a.2 = s)
    (l : List (String × S)) :
    (List.orderedInsert (fun x y => y.2 ≤ x.2) a l).filter (fun x => decide (x.2 = s)) =
      l.filter (fun x => decide (x.2 = s)) := by
  induction l with
  | nil => simp [List.orderedInsert, ha]
  | cons b t ih =>
    by_cases hr : b.2 ≤ a.2
    · simp only [List.orderedInsert, if_pos hr]
      simp [ha]
    · simp only [List.orderedInsert, if_neg hr]
      by_cases hb : b.2 = s <;> simp [hb, ih]

/-- Stability of the descending insertion sort: for every score value `s`,
the score-`s` pairs of the sorted list are exactly the score-`s` pairs of
the input in their original order. -/
theorem filter_insertionSort_eq (s : S) (l : List (String × S)) :
    (List.insertionSort (fun x y => y.2 ≤ x.2) l).filter (fun x => decide (x.2 = s)) =
      l.filter (fun x => decide (x.2 = s)) := by
  induction l with
  | nil => rfl
  | cons a t ih =>
    simp only [List.insertionSort]
    by_cases ha : a.2 = s
    · rw [filter_orderedInsert_eq_pos s a ha, ih]
      simp [ha]
    · rw [filter_orderedInsert_eq_neg s a ha, ih]
      simp [ha]

/-- C5: for every store state, query vector, `k > 0` and metric, the
sequence returned by `search` is sorted in descending order of score, and
for every score value the results carrying it appear in the same relative
order as in the scored iteration of the store (its keys' insertion order):
the stable sort preserves ties, and the slice keeps a prefix of them. -/
theorem search_sorted_and_stable (db : VectorDatabase V) (query_vector : V) (k : ℤ)
    (hk : 0 < k) (distance_measure : V → V → S) :
    List.Sorted (fun a b => b.2 ≤ a.2) (db.search query_vector k distance_measure)
    ∧ ∀ s : S,
        (db.search query_vector k distance_measure).filter (fun x => decide (x.2 = s)) <+:
          (db.vectors.map (fun kv => (kv.1, distance_measure query_vector kv.2))).filter
            (fun x => decide (x.2 = s)) := by
  haveI h1 : IsTotal (String × S) (fun x y => y.2 ≤ x.2) := ⟨fun a b => le_total b.2 a.2⟩
  haveI h2 : IsTrans (String × S) (fun x y => y.2 ≤ x.2) :=
    ⟨fun a b c hab hbc => le_trans hbc hab⟩
  constructor
  · exact List.Pairwise.sublist (pySliceTo_isPre k _).sublist
      (List.sorted_insertionSort _ _)
  · intro s
    have hstep := filter_isPre (fun x => decide (x.2 = s)) (pySliceTo_isPre k
      (List.insertionSort (fun x y => y.2 ≤ x.2)
        (db.vectors.map (fun kv => (kv.1, distance_measure query_vector kv.2)))))
    rwa [filter_insertionSort_eq] at hstep

/-- C5 witness: the sortedness-and-stability statement applied to a
concrete two-entry store with a tie, at `k = 3`. -/
theorem search_sorted_and_stable_witness :
    (0 : ℤ) < 3
    ∧ (List.Sorted (fun a b => b.2 ≤ a.2)
        ((⟨[("a", (1 : ℤ)), ("b", 3), ("c", 1)]⟩ : VectorDatabase ℤ).search 1 3
          (fun q v => q * v))
      ∧ ∀ s : ℤ,
          (((⟨[("a", (1 : ℤ)), ("b", 3), ("c", 1)]⟩ : VectorDatabase ℤ).search 1 3
            (fun q v => q * v)).filter (fun x => decide (x.2 = s))) <+:
            (((⟨[("a", (1 : ℤ)), ("b", 3), ("c", 1)]⟩ : VectorDatabase ℤ).vectors.map
              (fun kv => (kv.1, (fun q v => q * v : ℤ → ℤ → ℤ) 1 kv.2))).filter
              (fun x => decide (x.2 = s)))) :=
  ⟨by norm_num,
    search_sorted_and_stable ⟨[("a", (1 : ℤ)), ("b", 3), ("c", 1)]⟩ 1 3 (by norm_num)
      (fun q v => q * v)⟩

/-- A vector's dot product with itself (its squared norm) is nonnegative. -/
theorem dotp_self_nonneg (a : List ℝ) : 0 ≤ dotp a a := by
  induction a with
  | nil => simp [dotp]
  | cons x xs ih =>
    have : dotp (x :: xs) (x :: xs) = x * x + dotp xs xs := by
      simp [dotp, List.zipWith]
    rw [this]
    exact add_nonneg (mul_self_nonneg x) ih

/-- Cauchy-Schwarz for the list dot product. -/
theorem dotp_sq_le (a b : List ℝ) : dotp a b ^ 2 ≤ dotp a a * dotp b b := by
  induction a generalizing b with
  | nil => simp [dotp]
  | cons x xs ih =>
    cases b with
    | nil => simp [dotp]
    | cons y ys =>
      have hd : dotp (x :: xs) (y :: ys) = x * y + dotp xs ys := by
        simp [dotp, List.zipWith]
      have ha : dotp (x :: xs) (x :: xs) = x * x + dotp xs xs := by
        simp [dotp, List.zipWith]
      have hb : dotp (y :: ys) (y :: ys) = y * y + dotp ys ys := by
        simp [dotp, List.zipWith]
      rw [hd, ha, hb]
      have hA := dotp_self_nonneg xs
      have hB := dotp_self_nonneg ys
      have hih := ih ys
      rcases eq_or_lt_of_le hB with hB0 | hBpos
      · have hih' : dotp xs ys ^ 2 ≤ 0 := by
          have := hih
          rw [← hB0, mul_zero] at this
          exact this
        have hd0 : dotp xs ys = 0 :=
          pow_eq_zero_iff two_ne_zero |>.mp (le_antisymm hih' (sq_nonneg _))
        rw [hd0, ← hB0]
        nlinarith [mul_nonneg hA (sq_nonneg y)]
      · nlinarith [sq_nonneg (x * dotp ys ys - y * dotp xs ys),
          mul_nonneg (sq_nonneg y) (sub_nonneg.mpr hih), hBpos]

/-- The dot product is bounded by the product of the norms. -/
theorem dotp_le_norms (a b : List ℝ) :
    dotp a b ≤ Real.sqrt (dotp a a) * Real.sqrt (dotp b b) := by
  calc dotp a b ≤ |dotp a b| := le_abs_self _
    _ = Real.sqrt (dotp a b ^ 2) := (Real.sqrt_sq_eq_abs _).symm
    _ ≤ Real.sqrt (dotp a a * dotp b b) := Real.sqrt_le_sqrt (dotp_sq_le a b)
    _ = Real.sqrt (dotp a a) * Real.sqrt (dotp b b) :=
        Real.sqrt_mul (dotp_self_nonneg a) _

/-- C7, counterexample to the claim as stated: under the dot-product
metric, `metric(v, v)` is not the maximum attainable score for `v`:
against `w = [2]`, the vector `v = [1]` scores `2 > 1 = metric(v, v)`. -/
theorem dot_product_self_not_max_cex :
    dot_product_similarity [1] [1] < dot_product_similarity [1] [2] := by
  norm_num [dot_product_similarity, dotp]

/-- C7, amended: for every vector `v`, `metric(v, v)` is the maximum score
attainable for `v` against any vector under the cosine metric (with the
source's silent division by zero on all-zero vectors read as score `0`);
under the euclidean and manhattan metrics `metric(v, v)` equals `0`, the
maximum since those metrics' scores are always `≤ 0`.  (The dot-product
half of the original claim is dropped: it is refuted by the
counterexample.) -/
theorem metrics_self_max (v w : List ℝ) :
    cosine_similarity v w ≤ cosine_similarity v v
    ∧ euclidean_similarity v v = 0
    ∧ euclidean_similarity v w ≤ 0
    ∧ manhattan_similarity v v = 0
    ∧ manhattan_similarity v w ≤ 0 := by
  refine ⟨?_, ?_, ?_, ?_, ?_⟩
  · unfold cosine_similarity
    rcases eq_or_lt_of_le (dotp_self_nonneg v) with hA | hA
    · rw [← hA]
      simp [Real.sqrt_zero]
    · have hsv : Real.sqrt (dotp v v) * Real.sqrt (dotp v v) = dotp v v :=
        Real.mul_self_sqrt (le_of_lt hA)
      rw [hsv, div_self (ne_of_gt hA)]
      rcases eq_or_lt_of_le
          (mul_nonneg (Real.sqrt_nonneg (dotp v v)) (Real.sqrt_nonneg (dotp w w))) with
        hD | hD
      · rw [← hD, div_zero]
        exact zero_le_one
      · exact (div_le_one hD).mpr (dotp_le_norms v w)
  · unfold euclidean_similarity
    have hz : ((List.zipWith (fun x y => x - y) v v).map (fun x => x ^ 2)).sum = 0 := by
      induction v with
      | nil => simp
      | cons x xs ih => simpa using ih
    rw [hz, Real.sqrt_zero, neg_zero]
  · exact neg_nonpos.mpr (Real.sqrt_nonneg _)
  · unfold manhattan_similarity
    have hz : ((List.zipWith (fun x y => x - y) v v).map (fun x => |x|)).sum = 0 := by
      induction v with
      | nil => simp
      | cons x xs ih => simpa using ih
    rw [hz, neg_zero]
  · unfold manhattan_similarity
    refine neg_nonpos.mpr (List.sum_nonneg ?_)
    intro x hx
    obtain ⟨y, hy, rfl⟩ := List.mem_map.mp hx
    exact abs_nonneg y

/-- For a nonnegative start offset `i ≤ length` and a positive slice width,
Python's `text[i : i + size]` is `take size` of `drop i`. -/
theorem pySlice_nat (l : List Char) (i : ℕ) (size : ℤ) (hsize : 0 < size)
    (hi : i ≤ l.length) :
    pySlice l (i : ℤ) ((i : ℤ) + size) = (l.drop i).take size.toNat := by
  simp only [pySlice]
  rw [if_neg (by omega), if_neg (by omega)]
  have ha' : (min (i : ℤ) (l.length : ℤ)).toNat = i := by omega
  have hb' : (min ((i : ℤ) + size) (l.length : ℤ)).toNat =
      min (i + size.toNat) l.length := by omega
  rw [ha', hb', List.drop_take, List.take_eq_take]
  simp only [List.length_drop]
  omega

/-- The `n`-th chunk produced by `split` is the slice starting at offset
`stride * n`. -/
theorem split_chunk_get? (cs co : ℤ) (text : List Char) (n : ℕ)
    (hn : n < (text.length + (cs - co).toNat - 1) / (cs - co).toNat) :
    ((⟨cs, co⟩ : CharacterTextSplitter).split text).get? n =
      some (pySlice text (((cs - co).toNat * n : ℕ) : ℤ)
        ((((cs - co).toNat * n : ℕ) : ℤ) + cs)) := by
  unfold CharacterTextSplitter.split
  rw [List.get?_map, List.get?_eq_get (by simpa [List.length_range'] using hn),
    List.get_range']
  simp

/-- C6, counterexample to the claim as stated: the constructor accepts a
negative `chunk_overlap` (the assert only demands `chunk_size >
chunk_overlap`), and then the stride `chunk_size - chunk_overlap` exceeds
`chunk_size`, so characters between chunks are skipped: with
`chunk_size = 1`, `chunk_overlap = -1` on the two-character text `"ab"`
the only chunk is `"a"` — the character at index 1 is covered by no chunk
(and the last chunk does not reach the end of the text). -/
theorem split_negative_overlap_cex :
    ((-1 : ℤ) < 1)
    ∧ (⟨1, -1⟩ : CharacterTextSplitter).split ['a', 'b'] = [['a']]
    ∧ ¬ (∀ j, j < (['a', 'b'] : List Char).length →
        ∃ n msub,
          n < ((⟨1, -1⟩ : CharacterTextSplitter).split ['a', 'b']).length
          ∧ msub < (((⟨1, -1⟩ : CharacterTextSplitter).split ['a', 'b']).getD n []).length
          ∧ ((1 : ℤ) - (-1)).toNat * n + msub = j
          ∧ (((⟨1, -1⟩ : CharacterTextSplitter).split ['a', 'b']).getD n []).get? msub
              = (['a', 'b'] : List Char).get? j) := by
  refine ⟨by norm_num, by decide, ?_⟩
  intro h
  obtain ⟨n, msub, hn, hm, heq, _⟩ := h 1 (by decide)
  have hc : (⟨1, -1⟩ : CharacterTextSplitter).split ['a', 'b'] = [['a']] := by decide
  rw [hc] at hn hm
  simp only [List.length_cons, List.length_nil] at hn
  have hn0 : n = 0 := by omega
  subst hn0
  simp only [List.getD_cons_zero, List.length_cons, List.length_nil] at hm
  have ht : ((1 : ℤ) - (-1)).toNat = 2 := by decide
  rw [ht] at heq
  omega

/-- C6, amended: for every text and every configuration with
`0 ≤ chunk_overlap < chunk_size` (the original claim, restricted to
nonnegative overlaps; a negative overlap is accepted by the constructor
but breaks coverage, see the counterexample), the chunks returned by
`split` cover every character of the text at least once — character `j`
sits at offset `msub` of chunk `n` with `stride * n + msub = j` — the
last chunk ends exactly at the end of the text (it is `text.drop i` for
some `i < length`, a suffix reaching the end), and `split` applied to the
empty text yields an empty sequence. -/
theorem split_covers_text (chunk_size chunk_overlap : ℤ) (h0 : 0 ≤ chunk_overlap)
    (h1 : chunk_overlap < chunk_size) (text : List Char) :
    (∀ j, j < text.length →
      ∃ n msub,
        n < ((⟨chunk_size, chunk_overlap⟩ : CharacterTextSplitter).split text).length
        ∧ msub <
            (((⟨chunk_size, chunk_overlap⟩ : CharacterTextSplitter).split text).getD n []).length
        ∧ (chunk_size - chunk_overlap).toNat * n + msub = j
        ∧ (((⟨chunk_size, chunk_overlap⟩ : CharacterTextSplitter).split text).getD n []).get? msub
            = text.get? j)
    ∧ (text ≠ [] →
        ∃ i, i < text.length
          ∧ ((⟨chunk_size, chunk_overlap⟩ : CharacterTextSplitter).split text).getLast?
              = some (text.drop i))
    ∧ (⟨chunk_size, chunk_overlap⟩ : CharacterTextSplitter).split [] = [] := by
  have hstride : 0 < (chunk_size - chunk_overlap).toNat := by omega
  have hsize : 0 < chunk_size := by omega
  have hstrsize : (chunk_size - chunk_overlap).toNat ≤ chunk_size.toNat := by omega
  have hlen : ((⟨chunk_size, chunk_overlap⟩ : CharacterTextSplitter).split text).length
      = (text.length + (chunk_size - chunk_overlap).toNat - 1) /
          (chunk_size - chunk_overlap).toNat := by
    simp [CharacterTextSplitter.split, List.length_range']
  refine ⟨?_, ?_, ?_⟩
  · intro j hj
    have hmod := Nat.div_add_mod j (chunk_size - chunk_overlap).toNat
    have hr_lt : j % (chunk_size - chunk_overlap).toNat < (chunk_size - chunk_overlap).toNat :=
      Nat.mod_lt _ hstride
    have hm_eq : (text.length + (chunk_size - chunk_overlap).toNat - 1) /
        (chunk_size - chunk_overlap).toNat =
        (text.length - 1) / (chunk_size - chunk_overlap).toNat + 1 := by
      have h' : text.length + (chunk_size - chunk_overlap).toNat - 1 =
          (text.length - 1) + (chunk_size - chunk_overlap).toNat := by omega
      rw [h', Nat.add_div_right _ hstride]
    have hq_lt : j / (chunk_size - chunk_overlap).toNat <
        (text.length + (chunk_size - chunk_overlap).toNat - 1) /
          (chunk_size - chunk_overlap).toNat := by
      rw [hm_eq]
      have := Nat.div_le_div_right (c := (chunk_size - chunk_overlap).toNat)
        (show j ≤ text.length - 1 by omega)
      omega
    have hiL : (chunk_size - chunk_overlap).toNat * (j / (chunk_size - chunk_overlap).toNat)
        ≤ text.length := by omega
    have hchunkD :
        ((⟨chunk_size, chunk_overlap⟩ : CharacterTextSplitter).split text).getD
            (j / (chunk_size - chunk_overlap).toNat) [] =
          (text.drop ((chunk_size - chunk_overlap).toNat *
            (j / (chunk_size - chunk_overlap).toNat))).take chunk_size.toNat := by
      rw [List.getD_eq_get?, split_chunk_get? chunk_size chunk_overlap text _ hq_lt,
        pySlice_nat text _ chunk_size hsize hiL]
      rfl
    refine ⟨j / (chunk_size - chunk_overlap).toNat, j % (chunk_size - chunk_overlap).toNat,
      ?_, ?_, ?_, ?_⟩
    · rw [hlen]
      exact hq_lt
    · rw [hchunkD, List.length_take, List.length_drop]
      omega
    · omega
    · rw [hchunkD, List.get?_take (by omega), List.get?_drop]
      congr 1
  · intro htext
    have hL : 0 < text.length := List.length_pos.mpr htext
    have hm_eq : (text.length + (chunk_size - chunk_overlap).toNat - 1) /
        (chunk_size - chunk_overlap).toNat =
        (text.length - 1) / (chunk_size - chunk_overlap).toNat + 1 := by
      have h' : text.length + (chunk_size - chunk_overlap).toNat - 1 =
          (text.length - 1) + (chunk_size - chunk_overlap).toNat := by omega
      rw [h', Nat.add_div_right _ hstride]
    have hq := Nat.div_add_mod (text.length - 1) (chunk_size - chunk_overlap).toNat
    have hmodlt : (text.length - 1) % (chunk_size - chunk_overlap).toNat <
        (chunk_size - chunk_overlap).toNat := Nat.mod_lt _ hstride
    generalize hQ : (text.length - 1) / (chunk_size - chunk_overlap).toNat = q at hq hm_eq
    generalize hM : (text.length - 1) % (chunk_size - chunk_overlap).toNat = M
      at hq hmodlt
    have hiL : (chunk_size - chunk_overlap).toNat * q ≤ text.length := by
      generalize hP : (chunk_size - chunk_overlap).toNat * q = P at hq ⊢
      omega
    refine ⟨(chunk_size - chunk_overlap).toNat * q, ?_, ?_⟩
    · generalize hP : (chunk_size - chunk_overlap).toNat * q = P at hq ⊢
      omega
    · rw [List.getLast?_eq_get?, hlen, hm_eq, Nat.add_sub_cancel,
        split_chunk_get? chunk_size chunk_overlap text q
          (by rw [hm_eq]; exact Nat.lt_succ_self _),
        pySlice_nat text _ chunk_size hsize hiL]
      rw [List.take_of_length_le (by
        rw [List.length_drop]
        generalize hP : (chunk_size - chunk_overlap).toNat * q = P at hq ⊢
        omega)]
  · have hzero : ((0 : ℕ) + (chunk_size - chunk_overlap).toNat - 1) /
        (chunk_size - chunk_overlap).toNat = 0 := Nat.div_eq_of_lt (by omega)
    simp only [CharacterTextSplitter.split, List.length_nil]
    rw [hzero]
    rfl

/-- C6 witness: the amended coverage statement applied to the concrete
configuration `chunk_size = 2`, `chunk_overlap = 1` and the text `"ab"`. -/
theorem split_covers_text_witness :
    ((0 : ℤ) ≤ 1) ∧ ((1 : ℤ) < 2)
    ∧ ((∀ j, j < (['a', 'b'] : List Char).length →
        ∃ n msub,
          n < ((⟨2, 1⟩ : CharacterTextSplitter).split ['a', 'b']).length
          ∧ msub < (((⟨2, 1⟩ : CharacterTextSplitter).split ['a', 'b']).getD n []).length
          ∧ ((2 : ℤ) - 1).toNat * n + msub = j
          ∧ (((⟨2, 1⟩ : CharacterTextSplitter).split ['a', 'b']).getD n []).get? msub
              = (['a', 'b'] : List Char).get? j)
      ∧ ((['a', 'b'] : List Char) ≠ [] →
          ∃ i, i < (['a', 'b'] : List Char).length
            ∧ ((⟨2, 1⟩ : CharacterTextSplitter).split ['a', 'b']).getLast?
                = some ((['a', 'b'] : List Char).drop i))
      ∧ (⟨2, 1⟩ : CharacterTextSplitter).split [] = []) :=
  ⟨by norm_num, by norm_num, split_covers_text 2 1 (by norm_num) (by norm_num) ['a', 'b']⟩

end AIE8
